import Mathlib

/-!
Shallow embedding of `src/address_book_v2.py` (a command-line contact book).

Modelling conventions:
* Python `datetime` objects are modelled at one-second granularity as a
  calendar date plus a seconds-of-day field (`PyDateTime`).  Dates parsed by
  `strptime("%d.%m.%Y")` have a zero time component, while `datetime.today()`
  carries the wall-clock time of day; both facts are observable in the code's
  comparisons and are preserved here.
* Python exceptions are modelled by the `PyErr` type and `Except`; the
  `input_error` decorator catches exactly `ValueError`, `IndexError` and
  `KeyError`, and passes every other exception through.
* Strings are Lean `String`s; the regex `\d` of `re.fullmatch(r"\d{10}", ...)`
  is modelled as the decimal digits `0`-`9` (the inputs of this program are
  ASCII command-line tokens).
* `strftime("%d.%m.%Y")` is modelled as zero-padded two-digit day and month
  and four-digit year.
* The in-place mutation of the single `AddressBook` is modelled by explicit
  state passing: each handler returns its result (or the exception it raises)
  together with the book as it stands at that moment, so partial mutation
  before an exception is visible.
-/

inductive PyErr where
  | valueError (msg : String)
  | indexError
  | keyError
  | typeError (msg : String)
deriving DecidableEq

structure Date where
  year : Nat
  month : Nat
  day : Nat
deriving DecidableEq

/-- A Python `datetime` at one-second granularity: a date plus seconds of day. -/
structure PyDateTime where
  date : Date
  tod : Nat
deriving DecidableEq

def isLeap (y : Nat) : Bool :=
  (y % 4 = 0 && y % 100 != 0) || y % 400 = 0

def daysInMonth (y m : Nat) : Nat :=
  match m with
  | 1 => 31
  | 2 => if isLeap y then 29 else 28
  | 3 => 31
  | 4 => 30
  | 5 => 31
  | 6 => 30
  | 7 => 31
  | 8 => 31
  | 9 => 30
  | 10 => 31
  | 11 => 30
  | 12 => 31
  | _ => 0

def isValidDate (y m d : Nat) : Bool :=
  1 ≤ m && m ≤ 12 && 1 ≤ d && d ≤ daysInMonth y m

/-- Days in the months of year `y` strictly before month `m`. -/
def daysBeforeMonth (y : Nat) : Nat → Nat
  | 0 => 0
  | 1 => 0
  | m + 1 => daysBeforeMonth y m + daysInMonth y (m)

/-- Days before January 1 of year `y` (proleptic Gregorian, year 1 based). -/
def daysBeforeYear (y : Nat) : Nat :=
  365 * (y - 1) + (y - 1) / 4 + (y - 1) / 400 - (y - 1) / 100

/-- Rata-die style ordinal of a calendar date: used for comparison and
subtraction of Python `date`/`datetime` values. -/
def dateOrdinal (dt : Date) : Nat :=
  daysBeforeYear dt.year + daysBeforeMonth dt.year dt.month + dt.day

/-- Absolute value of a Python datetime in seconds; datetime comparison and
subtraction in the source are comparisons and subtraction of this value. -/
def dtVal (t : PyDateTime) : Nat :=
  dateOrdinal t.date * 86400 + t.tod

/-- `d.replace(year = y)`: Python raises `ValueError` when the month/day does
not exist in the target year (February 29 in a non-leap year). -/
def replaceYear (d : Date) (y : Nat) : Option Date :=
  if isValidDate y d.month d.day then some ⟨y, d.month, d.day⟩ else none

/-! ### Field validators -/

def digitVal (c : Char) : Nat := c.toNat - 48

def digitChar (n : Nat) : Char :=
  if n = 0 then '0' else if n = 1 then '1' else if n = 2 then '2'
  else if n = 3 then '3' else if n = 4 then '4' else if n = 5 then '5'
  else if n = 6 then '6' else if n = 7 then '7' else if n = 8 then '8' else '9'

/-- `Phone.__init__`: `re.fullmatch(r"\d{10}", value)` or `ValueError`. -/
def phone_new (p : String) : Except PyErr String :=
  if p.data.length = 10 && p.data.all Char.isDigit then .ok p
  else .error (.valueError "Phone number must consist of exactly 10 digits.")

/-- `Field.__str__` for `Name`/`Phone`: `str(self.value)` is the stored string. -/
def field_str (v : String) : String := v

/-- One or two digit numeric token of `strptime`: the `%d` pattern
`3[01]|[12]\d|0[1-9]|[1-9]` (with `lo = 1`, `hi = 31`) and the `%m` pattern
`1[0-2]|0[1-9]|[1-9]` (with `lo = 1`, `hi = 12`): a two-digit prefix whose
value lies in `[lo, hi]`, else a single nonzero digit.  Greedy matching is
exact here because after a one-digit token the next character must be `'.'`,
never a digit. -/
def parse2or1 (lo hi : Nat) : List Char → Option (Nat × List Char)
  | c1 :: c2 :: rest =>
    if c1.isDigit && c2.isDigit
        && lo ≤ 10 * digitVal c1 + digitVal c2
        && 10 * digitVal c1 + digitVal c2 ≤ hi then
      some (10 * digitVal c1 + digitVal c2, rest)
    else if c1.isDigit && 1 ≤ digitVal c1 && digitVal c1 ≤ 9 then
      some (digitVal c1, c2 :: rest)
    else none
  | [c1] =>
    if c1.isDigit && 1 ≤ digitVal c1 && digitVal c1 ≤ 9 then
      some (digitVal c1, [])
    else none
  | [] => none

/-- The literal `'.'` separators of the format. -/
def expectDot : List Char → Option (List Char)
  | '.' :: cs => some cs
  | _ => none

/-- The `%Y` pattern: exactly four digits, which must exhaust the input
(`strptime` rejects unconverted trailing data). -/
def parseYear4 : List Char → Option Nat
  | [y1, y2, y3, y4] =>
    if y1.isDigit && y2.isDigit && y3.isDigit && y4.isDigit then
      some (1000 * digitVal y1 + 100 * digitVal y2
            + 10 * digitVal y3 + digitVal y4)
    else none
  | _ => none

/-- `datetime.strptime(s, "%d.%m.%Y")`, day/month/year extraction: returns
`(day, month, year)` when the whole string matches the format's regex. -/
def parseDMY (cs : List Char) : Option (Nat × Nat × Nat) :=
  (parse2or1 1 31 cs).bind fun dc =>
    (expectDot dc.2).bind fun cs₂ =>
      (parse2or1 1 12 cs₂).bind fun mc =>
        (expectDot mc.2).bind fun cs₄ =>
          (parseYear4 cs₄).map fun y => (dc.1, mc.1, y)

/-- `Birthday.__init__`: `datetime.strptime(value, "%d.%m.%Y")`; any
`ValueError` (format mismatch, impossible date, year 0) is re-raised as the
fixed invalid-format message. -/
def birthday_new (s : String) : Except PyErr Date :=
  match parseDMY s.data with
  | none => .error (.valueError "Invalid date format. Use DD.MM.YYYY.")
  | some (d, m, y) =>
    if 1 ≤ y && isValidDate y m d then .ok ⟨y, m, d⟩
    else .error (.valueError "Invalid date format. Use DD.MM.YYYY.")

def pad2 (n : Nat) : List Char := [digitChar (n / 10), digitChar (n % 10)]

def pad4 (n : Nat) : List Char :=
  [digitChar (n / 1000), digitChar (n / 100 % 10), digitChar (n / 10 % 10),
   digitChar (n % 10)]

/-- `strftime("%d.%m.%Y")` on a stored birthday (year modelled zero-padded). -/
def strftimeDMY (dt : Date) : String :=
  String.mk (pad2 dt.day ++ '.' :: pad2 dt.month ++ '.' :: pad4 dt.year)

/-! ### Record and AddressBook -/

structure Record where
  name : String
  phones : List String
  birthday : Option Date
deriving DecidableEq

/-- `AddressBook.data`: an insertion-ordered mapping, keys unique in every
reachable state. -/
abbrev Book := List (String × Record)

def bookFind : Book → String → Option Record
  | [], _ => none
  | (k, r) :: rest, n => if k = n then some r else bookFind rest n

/-- Apply `f` to the record stored under `name` (in-place mutation of the
record object the dict holds). -/
def bookModify (book : Book) (name : String) (f : Record → Record) : Book :=
  book.map (fun kv => if kv.1 = name then (kv.1, f kv.2) else kv)

/-- `AddressBook.add_record`: `self.data[record.name.value] = record`; an
existing key keeps its position, a new key is appended. -/
def bookAdd (book : Book) (r : Record) : Book :=
  if (bookFind book r.name).isSome then bookModify book r.name (fun _ => r)
  else book ++ [(r.name, r)]

def bookValues (book : Book) : List Record := book.map Prod.snd

/-- `Record.edit_phone`: replace the first phone equal to `old` by a freshly
validated `Phone(new)`; `ValueError` if none matches.  The new phone is
validated only at the replacement point, and a raised error leaves the list
untouched (the Python assignment never happens). -/
def edit_phone (phones : List String) (old nw : String) :
    Except PyErr (List String) :=
  match phones with
  | [] => .error (.valueError ("Phone number " ++ old ++ " not found."))
  | p :: rest =>
    if p = old then
      match phone_new nw with
      | .ok np => .ok (np :: rest)
      | .error e => .error e
    else
      match edit_phone rest old nw with
      | .ok rest₂ => .ok (p :: rest₂)
      | .error e => .error e

/-- `Record.days_to_birthday` with `datetime.today()` passed explicitly. -/
def days_to_birthday (r : Record) (today : PyDateTime) :
    Except PyErr (Option Int) :=
  match r.birthday with
  | none => .ok none
  | some b =>
    match replaceYear b today.date.year with
    | none => .error (.valueError "day is out of range for month")
    | some nb =>
      if dateOrdinal nb * 86400 < dtVal today then
        match replaceYear nb (today.date.year + 1) with
        | none => .error (.valueError "day is out of range for month")
        | some nb₂ =>
          .ok (some (Int.fdiv ((dateOrdinal nb₂ * 86400 : Int) - dtVal today)
            86400))
      else
        .ok (some (Int.fdiv ((dateOrdinal nb * 86400 : Int) - dtVal today)
          86400))

/-- The filter of `AddressBook.upcoming_birthdays`, record by record; the
`replace` call inside the comprehension can raise. -/
def upcomingGo (today : PyDateTime) : List Record → Except PyErr (List Record)
  | [] => .ok []
  | r :: rest =>
    match r.birthday with
    | none => upcomingGo today rest
    | some b =>
      match replaceYear b today.date.year with
      | none => .error (.valueError "day is out of range for month")
      | some c =>
        if dtVal today ≤ dateOrdinal c * 86400
            && dateOrdinal c * 86400 ≤ dtVal today + 7 * 86400 then
          match upcomingGo today rest with
          | .ok l => .ok (r :: l)
          | .error e => .error e
        else upcomingGo today rest

/-- `AddressBook.upcoming_birthdays` with `datetime.today()` explicit. -/
def upcoming_birthdays (book : Book) (today : PyDateTime) :
    Except PyErr (List Record) :=
  upcomingGo today (bookValues book)

/-- `Record.__str__`. -/
def recordStr (r : Record) : String :=
  "Contact name: " ++ r.name ++ ", phones: "
    ++ String.intercalate "; " r.phones ++ ", birthday: "
    ++ (match r.birthday with | some b => strftimeDMY b | none => "N/A")

/-! ### Handlers

Each handler body returns the raised exception or the result string, paired
with the book as it stands when control leaves the body. -/

/-- The `input_error` decorator: catches `ValueError` (returning `str(e)`),
`IndexError` and `KeyError`; every other exception propagates. -/
def input_error (res : Except PyErr String × Book) : Except PyErr String × Book :=
  match res with
  | (.error (.valueError m), b) => (.ok m, b)
  | (.error .indexError, b) => (.ok "Error: Missing arguments.", b)
  | (.error .keyError, b) => (.ok "Error: Contact not found.", b)
  | other => other

def greet (_ : List String) (book : Book) : Except PyErr String × Book :=
  (.ok "How can I help you?", book)

/-- The `if birthday:` / birthday-adding tail of `add_contact` (`birthday` is
`None` or the third argument; the empty string is falsy). -/
def addContactBdStep (name : String) (bd : Option String) (msg : String)
    (book : Book) : Except PyErr String × Book :=
  match bd with
  | some bs =>
    if bs ≠ "" then
      match birthday_new bs with
      | .error e => (.error e, book)
      | .ok d =>
        (.ok msg, bookModify book name (fun r => { r with birthday := some d }))
    else (.ok msg, book)
  | none => (.ok msg, book)

/-- The `if phone:` phone-adding step of `add_contact` followed by the
birthday step; `record.add_phone` validates and appends. -/
def addContactPhoneStep (name phone : String) (bd : Option String)
    (msg : String) (book : Book) : Except PyErr String × Book :=
  if phone ≠ "" then
    match phone_new phone with
    | .error e => (.error e, book)
    | .ok p =>
      addContactBdStep name bd msg
        (bookModify book name (fun r => { r with phones := r.phones ++ [p] }))
  else addContactBdStep name bd msg book

/-- `add_contact`: `name, phone, *other = args` (a `ValueError` when fewer
than two arguments), find-or-create, then phone and birthday steps.  The
fresh record is added to the book before the phone and birthday are
validated. -/
def add_contact (args : List String) (book : Book) :
    Except PyErr String × Book :=
  match args with
  | name :: phone :: other =>
    match bookFind book name with
    | some _ => addContactPhoneStep name phone other.head? "Contact updated." book
    | none =>
      if name = "" then (.error (.valueError "Name cannot be empty."), book)
      else
        addContactPhoneStep name phone other.head? "Contact added."
          (bookAdd book ⟨name, [], none⟩)
  | _ =>
    (.error (.valueError ("not enough values to unpack (expected at least 2, got "
      ++ toString args.length ++ ")")), book)

/-- `change_contact`: `name, old_phone, new_phone = args` (a `ValueError`
when the argument list does not have exactly three elements). -/
def change_contact (args : List String) (book : Book) :
    Except PyErr String × Book :=
  match args with
  | [name, old, nw] =>
    match bookFind book name with
    | some r =>
      match edit_phone r.phones old nw with
      | .ok ps =>
        (.ok "Phone number updated.",
          bookModify book name (fun rc => { rc with phones := ps }))
      | .error e => (.error e, book)
    | none => (.ok "Contact not found.", book)
  | _ =>
    if args.length < 3 then
      (.error (.valueError ("not enough values to unpack (expected 3, got "
        ++ toString args.length ++ ")")), book)
    else
      (.error (.valueError "too many values to unpack (expected 3)"), book)

def show_phone (args : List String) (book : Book) :
    Except PyErr String × Book :=
  match args with
  | name :: _ =>
    match bookFind book name with
    | some r =>
      (.ok (name ++ ": " ++ String.intercalate ", " r.phones), book)
    | none => (.ok "Contact not found.", book)
  | [] =>
    (.error (.valueError "not enough values to unpack (expected at least 1, got 0)"),
      book)

def add_birthday (args : List String) (book : Book) :
    Except PyErr String × Book :=
  match args with
  | name :: bs :: _ =>
    match bookFind book name with
    | some _ =>
      match birthday_new bs with
      | .error e => (.error e, book)
      | .ok d =>
        (.ok "Birthday added.",
          bookModify book name (fun r => { r with birthday := some d }))
    | none => (.ok "Contact not found.", book)
  | _ =>
    (.error (.valueError ("not enough values to unpack (expected at least 2, got "
      ++ toString args.length ++ ")")), book)

def show_birthday (args : List String) (book : Book) :
    Except PyErr String × Book :=
  match args with
  | name :: _ =>
    match bookFind book name with
    | some r =>
      match r.birthday with
      | some b => (.ok (name ++ ": " ++ strftimeDMY b), book)
      | none => (.ok "No birthday found for this contact.", book)
    | none => (.ok "No birthday found for this contact.", book)
  | [] =>
    (.error (.valueError "not enough values to unpack (expected at least 1, got 0)"),
      book)

/-- `show_all_contacts(book)` takes a single parameter in this file; its body
(reachable only if called with one argument). -/
def show_all_contacts (book : Book) : Except PyErr String :=
  if book.isEmpty then .ok "No contacts found."
  else .ok (String.intercalate "\n" ((bookValues book).map recordStr))

/-- `show_upcoming_birthdays`; every record the query returns carries a
birthday, so the `.value` access is modelled with an irrelevant default. -/
def show_upcoming_birthdays (today : PyDateTime) (_ : List String)
    (book : Book) : Except PyErr String × Book :=
  match upcoming_birthdays book today with
  | .error e => (.error e, book)
  | .ok ups =>
    if ups.isEmpty then (.ok "No birthdays in the next 7 days.", book)
    else
      (.ok (String.intercalate "\n" (ups.map (fun r =>
        r.name ++ ": " ++ strftimeDMY (r.birthday.getD ⟨1, 1, 1⟩)))), book)

/-! ### REPL loop -/

/-- Python's notion of whitespace (`str.isspace()` per character, the set
`str.split()` splits on): `\t`-`\r`, `\x1c`-`\x20`, NEL, NBSP, and the
Unicode space separators. -/
def pyIsSpace (c : Char) : Bool :=
  (9 ≤ c.toNat && c.toNat ≤ 13) || (28 ≤ c.toNat && c.toNat ≤ 32)
    || c.toNat = 0x85 || c.toNat = 0xa0 || c.toNat = 0x1680
    || (0x2000 ≤ c.toNat && c.toNat ≤ 0x200a)
    || c.toNat = 0x2028 || c.toNat = 0x2029
    || c.toNat = 0x202f || c.toNat = 0x205f || c.toNat = 0x3000

/-- Worker for Python `str.split()`: `acc` holds the current token's
characters in reverse. -/
def pySplitGo : List Char → List Char → List String
  | [], acc => if acc.isEmpty then [] else [String.mk acc.reverse]
  | c :: cs, acc =>
    if pyIsSpace c then
      if acc.isEmpty then pySplitGo cs []
      else String.mk acc.reverse :: pySplitGo cs []
    else pySplitGo cs (c :: acc)

/-- Python `str.split()`: split on whitespace runs, dropping empty pieces. -/
def pySplit (s : String) : List String := pySplitGo s.data []

/-- Python `str.lower()` (ASCII case folding suffices for the commands). -/
def pyLower (s : String) : String := String.mk (s.data.map Char.toLower)

/-- `parse_input`: `cmd, *args = user_input.split()` raises `ValueError` on
an empty token list; `cmd.strip()` is a no-op on a split token and
`.lower()` lower-cases it. -/
def parse_input (s : String) : Except PyErr (String × List String) :=
  match pySplit s with
  | [] => .error (.valueError "not enough values to unpack (expected at least 1, got 0)")
  | c :: args => .ok (pyLower c, args)

inductive StepRes where
  | crash (e : PyErr)
  | bye
  | out (s : String) (b : Book)
deriving DecidableEq

def runWrapped (res : Except PyErr String × Book) : StepRes :=
  match input_error res with
  | (.ok s, b) => .out s b
  | (.error e, _) => .crash e

/-- One iteration of `main`'s `while True` loop on input line `line`:
either an uncaught exception (`crash`), normal termination (`bye`), or a
printed line plus the next book state.  The `all` command calls the
one-parameter `show_all_contacts` with two arguments, an uncaught
`TypeError`. -/
def stepLine (today : PyDateTime) (line : String) (book : Book) : StepRes :=
  match parse_input line with
  | .error e => .crash e
  | .ok (c, args) =>
    if c = "close" ∨ c = "exit" then .bye
    else if c = "hello" then runWrapped (greet args book)
    else if c = "add" then runWrapped (add_contact args book)
    else if c = "change" then runWrapped (change_contact args book)
    else if c = "phone" then runWrapped (show_phone args book)
    else if c = "all" then
      .crash (.typeError
        "show_all_contacts() takes 1 positional argument but 2 were given")
    else if c = "add-birthday" then runWrapped (add_birthday args book)
    else if c = "show-birthday" then runWrapped (show_birthday args book)
    else if c = "birthdays" then runWrapped (show_upcoming_birthdays today args book)
    else .out "Invalid command." book

/-! ### Handler-operation sequences (for the key-consistency invariant) -/

inductive Cmd where
  | hello | add | change | phone | all | addBd | showBd | birthdays
deriving DecidableEq

/-- The book after one handler operation (`all` raises before touching the
book, the other handlers run wrapped as in `main`). -/
def applyCmd (today : PyDateTime) (c : Cmd) (args : List String) (book : Book) :
    Book :=
  match c with
  | .hello => (input_error (greet args book)).2
  | .add => (input_error (add_contact args book)).2
  | .change => (input_error (change_contact args book)).2
  | .phone => (input_error (show_phone args book)).2
  | .all => book
  | .addBd => (input_error (add_birthday args book)).2
  | .showBd => (input_error (show_birthday args book)).2
  | .birthdays => (input_error (show_upcoming_birthdays today args book)).2

def runCmds (today : PyDateTime) (ops : List (Cmd × List String)) : Book :=
  ops.foldl (fun b p => applyCmd today p.1 p.2 b) []

/-! ### Specification-side predicates -/

/-- A string of exactly ten decimal digit characters. -/
def validPhoneStr (p : String) : Prop :=
  p.data.length = 10 ∧ ∀ c ∈ p.data, c.isDigit

instance (p : String) : Decidable (validPhoneStr p) := by
  unfold validPhoneStr; infer_instance

/-- A strict `DD.MM.YYYY` rendering of a real calendar date.  Years below
1000 are excluded because the C library's `%Y` does not portably zero-pad
them, so only there is the printed form unambiguous. -/
def StrictDateString (s : String) : Prop :=
  ∃ d : Date, 1000 ≤ d.year ∧ d.year ≤ 9999 ∧
    isValidDate d.year d.month d.day ∧ s = strftimeDMY d

/-- A one- or two-digit numeric token as `strptime`'s `%d`/`%m` patterns
accept it: a single nonzero digit, or two digits whose value is in
`[1, hi]`. -/
def numTok (hi : Nat) (cs : List Char) (v : Nat) : Prop :=
  (∃ c, cs = [c] ∧ c.isDigit ∧ digitVal c = v ∧ 1 ≤ v ∧ v ≤ 9) ∨
  (∃ c1 c2, cs = [c1, c2] ∧ c1.isDigit ∧ c2.isDigit ∧
    10 * digitVal c1 + digitVal c2 = v ∧ 1 ≤ v ∧ v ≤ hi)

/-- A four-digit year token. -/
def yearTok (cs : List Char) (v : Nat) : Prop :=
  ∃ c1 c2 c3 c4, cs = [c1, c2, c3, c4] ∧ c1.isDigit ∧ c2.isDigit ∧
    c3.isDigit ∧ c4.isDigit ∧
    1000 * digitVal c1 + 100 * digitVal c2 + 10 * digitVal c3 + digitVal c4 = v

/-- A string `strptime("%d.%m.%Y")` accepts and that denotes a real date:
day token, dot, month token, dot, four-digit year, with the triple a valid
calendar date of a positive year. -/
def LaxDateMatch (s : String) : Prop :=
  ∃ dcs mcs ycs d m y, s.data = dcs ++ '.' :: (mcs ++ '.' :: ycs) ∧
    numTok 31 dcs d ∧ numTok 12 mcs m ∧ yearTok ycs y ∧
    1 ≤ y ∧ isValidDate y m d

/-- The window test of the spec's §4.3: the record has a birthday whose
month/day, applied to today's year, gives a (valid) midnight instant between
now and now plus seven days. -/
def inWindow (today : PyDateTime) (r : Record) : Bool :=
  match r.birthday with
  | none => false
  | some b =>
    isValidDate today.date.year b.month b.day
      && dtVal today ≤ dateOrdinal ⟨today.date.year, b.month, b.day⟩ * 86400
      && dateOrdinal ⟨today.date.year, b.month, b.day⟩ * 86400
          ≤ dtVal today + 7 * 86400

def KeyInv (book : Book) : Prop := ∀ p ∈ book, (p.2).name = p.1

/-! ### Helper lemmas -/

theorem phone_new_ok_iff (p : String) : phone_new p = .ok p ↔ validPhoneStr p := by
  unfold phone_new validPhoneStr
  by_cases hb : (p.data.length = 10 && p.data.all Char.isDigit) = true
  · rw [if_pos hb]
    simp only [List.all_eq_true, Bool.and_eq_true, decide_eq_true_eq] at hb
    exact ⟨fun _ => ⟨hb.1, hb.2⟩, fun _ => rfl⟩
  · rw [if_neg hb]
    simp only [List.all_eq_true, Bool.and_eq_true, decide_eq_true_eq] at hb
    constructor
    · intro h; cases h
    · intro h; exact absurd ⟨h.1, h.2⟩ hb

theorem phone_new_err (p : String) (hb : ¬ validPhoneStr p) :
    phone_new p = .error (.valueError "Phone number must consist of exactly 10 digits.") := by
  unfold phone_new
  rw [if_neg]
  intro h
  simp only [List.all_eq_true, Bool.and_eq_true, decide_eq_true_eq] at h
  exact hb ⟨h.1, h.2⟩

theorem phone_new_ok_val {p q : String} (h : phone_new p = .ok q) : q = p := by
  unfold phone_new at h
  split at h
  · cases h; rfl
  · cases h

/-! ### C3 -/

/-- C3: the `Phone` constructor succeeds exactly on strings of ten decimal
digit characters, returns the string itself (so formatting reproduces the
input), and otherwise raises the fixed `ValueError`. -/
theorem phone_validation_iff (p : String) :
    (phone_new p = .ok p ↔ validPhoneStr p) ∧
    (∀ q, phone_new p = .ok q → field_str q = p) ∧
    (¬ validPhoneStr p →
      phone_new p = .error
        (.valueError "Phone number must consist of exactly 10 digits.")) :=
  ⟨phone_new_ok_iff p, fun _ hq => phone_new_ok_val hq, phone_new_err p⟩

/-- Witness for C3 at the concrete inputs `"1234567890"` and `"123"`. -/
theorem phone_validation_iff_witness :
    phone_new "1234567890" = .ok "1234567890" ∧
    phone_new "123" = .error
      (.valueError "Phone number must consist of exactly 10 digits.") :=
  ⟨(phone_validation_iff "1234567890").1.mpr (by decide),
   (phone_validation_iff "123").2.2 (by decide)⟩

/-! ### C9 -/

/-- C9: `show_birthday` on a name absent from the book answers with the
no-birthday message (the same one an existing record without a birthday
gets), which is not the contact-not-found message. -/
theorem show_birthday_absent_contact_message (book : Book) (name : String)
    (rest : List String) (h : bookFind book name = none) :
    show_birthday (name :: rest) book
      = (.ok "No birthday found for this contact.", book) ∧
    "No birthday found for this contact." ≠ "Contact not found." := by
  refine ⟨?_, by decide⟩
  simp [show_birthday, h]

/-- Witness for C9: the empty book does not contain `"Bob"`. -/
theorem show_birthday_absent_contact_message_witness :
    show_birthday ["Bob"] [] = (.ok "No birthday found for this contact.", []) ∧
    "No birthday found for this contact." ≠ "Contact not found." :=
  show_birthday_absent_contact_message [] "Bob" [] rfl

/-! ### C7 -/

/-- C7 (code bug): a handler called with too few arguments fails in tuple
unpacking with a `ValueError`, which `input_error` converts to the raw
unpacking text, not to the fixed missing-arguments message its dead
`IndexError` branch holds; shown for `change_contact` with zero and one
arguments. -/
theorem change_contact_missing_args_message (book : Book) :
    input_error (change_contact [] book)
      = (.ok "not enough values to unpack (expected 3, got 0)", book) ∧
    input_error (change_contact ["Alice"] book)
      = (.ok "not enough values to unpack (expected 3, got 1)", book) ∧
    ("not enough values to unpack (expected 3, got 0)" : String)
      ≠ "Error: Missing arguments." :=
  ⟨rfl, rfl, by decide⟩

/-! ### Counterexamples -/

/-- C1 counterexample: on 2024-12-28 a stored birthday of January 4 falls
exactly seven days ahead, yet `upcoming_birthdays` returns the empty list,
because the comparison date is built in today's year (2024-01-04). -/
theorem upcoming_birthdays_seven_days_cross_year_cex :
    upcoming_birthdays [("A", ⟨"A", [], some ⟨2000, 1, 4⟩⟩)]
        ⟨⟨2024, 12, 28⟩, 0⟩ = .ok [] ∧
    dateOrdinal ⟨2025, 1, 4⟩ = dateOrdinal ⟨2024, 12, 28⟩ + 7 :=
  ⟨rfl, by decide⟩

/-- C2 counterexample: at noon of 2024-03-10, a birthday of 10.03.2000 —
falling on today itself — is advanced a year (midnight of today is strictly
before `datetime.today()`), so 364 is returned where the claim demands 0. -/
theorem days_to_birthday_today_advanced_cex :
    days_to_birthday ⟨"Alice", [], some ⟨2000, 3, 10⟩⟩ ⟨⟨2024, 3, 10⟩, 43200⟩
      = .ok (some 364) ∧ (364 : Int) ≠ 0 :=
  ⟨rfl, by decide⟩

/-- C6 counterexample: `add_contact` with a fresh name and an invalid phone
returns the validation failure message, yet the freshly created record is
already in the directory. -/
theorem add_contact_partial_mutation_cex :
    (add_contact ["Alice", "123"] []).1
      = .error (.valueError "Phone number must consist of exactly 10 digits.") ∧
    (add_contact ["Alice", "123"] []).2 = [("Alice", ⟨"Alice", [], none⟩)] ∧
    bookFind (add_contact ["Alice", "123"] []).2 "Alice"
      = some ⟨"Alice", [], none⟩ :=
  ⟨rfl, rfl, rfl⟩

/-- C8 counterexample: an empty input line makes `parse_input`'s unpacking
raise an uncaught `ValueError`, and the `all` command calls the
one-parameter `show_all_contacts` with two arguments, an uncaught
`TypeError`; either one terminates the loop. -/
theorem loop_crash_inputs_cex :
    stepLine ⟨⟨2024, 1, 1⟩, 0⟩ "" []
      = .crash (.valueError
          "not enough values to unpack (expected at least 1, got 0)") ∧
    stepLine ⟨⟨2024, 1, 1⟩, 0⟩ "all" []
      = .crash (.typeError
          "show_all_contacts() takes 1 positional argument but 2 were given") :=
  ⟨rfl, rfl⟩

/-- C4 counterexample: `"5.1.2000"` is not a two-digit-day `DD.MM.YYYY`
string, yet the `Birthday` constructor accepts it (as January 5, 2000). -/
theorem birthday_one_digit_day_accepted_cex :
    birthday_new "5.1.2000" = .ok ⟨2000, 1, 5⟩ ∧
    ¬ StrictDateString "5.1.2000" := by
  refine ⟨rfl, ?_⟩
  rintro ⟨d, -, -, -, hs⟩
  have h1 : ("5.1.2000" : String).data.length = 8 := rfl
  have h2 : (strftimeDMY d).data.length = 10 := rfl
  rw [hs, h2] at h1
  exact absurd h1 (by decide)

/-! ### C5 -/

theorem edit_phone_not_found (phones : List String) (old nw : String)
    (h : old ∉ phones) :
    edit_phone phones old nw
      = .error (.valueError ("Phone number " ++ old ++ " not found.")) := by
  induction phones with
  | nil => rfl
  | cons p rest ih =>
    have hp : ¬ (p = old) := fun he => h (he ▸ List.mem_cons_self p rest)
    have hrest : old ∉ rest := fun hm => h (List.mem_cons_of_mem _ hm)
    simp only [edit_phone, if_neg hp, ih hrest]

theorem edit_phone_found (pre post : List String) (old nw : String)
    (hpre : old ∉ pre) :
    (validPhoneStr nw →
      edit_phone (pre ++ old :: post) old nw = .ok (pre ++ nw :: post)) ∧
    (¬ validPhoneStr nw →
      edit_phone (pre ++ old :: post) old nw
        = .error (.valueError "Phone number must consist of exactly 10 digits.")) := by
  induction pre with
  | nil =>
    constructor
    · intro hv
      simp [edit_phone, (phone_new_ok_iff nw).mpr hv]
    · intro hv
      simp [edit_phone, phone_new_err nw hv]
  | cons p rest ih =>
    have hp : ¬ (p = old) := fun he => hpre (he ▸ List.mem_cons_self p rest)
    have h2 : old ∉ rest := fun hm => hpre (List.mem_cons_of_mem _ hm)
    obtain ⟨ih1, ih2⟩ := ih h2
    constructor
    · intro hv
      simp only [List.cons_append, edit_phone, if_neg hp, List.append_eq]
      rw [ih1 hv]
    · intro hv
      simp only [List.cons_append, edit_phone, if_neg hp, List.append_eq]
      rw [ih2 hv]

/-- C5: `edit_phone` replaces exactly the first phone equal to `old`,
keeping every other entry; it raises the not-found `ValueError` when no
phone matches; and an invalid replacement string raises the validation
error, the list staying untouched (the assignment is never reached). -/
theorem edit_phone_first_match_spec (phones : List String) (old nw : String) :
    (old ∉ phones →
      edit_phone phones old nw
        = .error (.valueError ("Phone number " ++ old ++ " not found."))) ∧
    (∀ pre post, phones = pre ++ old :: post → old ∉ pre →
      (validPhoneStr nw →
        edit_phone phones old nw = .ok (pre ++ nw :: post)) ∧
      (¬ validPhoneStr nw →
        edit_phone phones old nw
          = .error
            (.valueError "Phone number must consist of exactly 10 digits."))) := by
  refine ⟨edit_phone_not_found phones old nw, ?_⟩
  intro pre post hsplit hpre
  exact hsplit ▸ edit_phone_found pre post old nw hpre

/-- Witness for C5: replacing the only phone succeeds; asking again for the
replaced number fails (it is no longer present); an invalid new number
fails with the validation error. -/
theorem edit_phone_first_match_spec_witness :
    edit_phone ["1234567890"] "1234567890" "0000000000" = .ok ["0000000000"] ∧
    edit_phone ["0000000000"] "1234567890" "1111111111"
      = .error (.valueError ("Phone number " ++ "1234567890" ++ " not found.")) ∧
    edit_phone ["1234567890"] "1234567890" "12"
      = .error (.valueError "Phone number must consist of exactly 10 digits.") :=
  ⟨((edit_phone_first_match_spec ["1234567890"] "1234567890" "0000000000").2
      [] [] rfl (by decide)).1 (by decide),
   (edit_phone_first_match_spec ["0000000000"] "1234567890" "1111111111").1
      (by decide),
   ((edit_phone_first_match_spec ["1234567890"] "1234567890" "12").2
      [] [] rfl (by decide)).2 (by decide)⟩

/-! ### C4 -/

theorem digitChar_isDigit {n : Nat} (h : n ≤ 9) : (digitChar n).isDigit = true := by
  interval_cases n <;> decide

theorem digitVal_digitChar {n : Nat} (h : n ≤ 9) : digitVal (digitChar n) = n := by
  interval_cases n <;> decide

theorem daysInMonth_le_31 (y m : Nat) : daysInMonth y m ≤ 31 := by
  unfold daysInMonth
  split <;> first | omega | (split <;> omega)

theorem parse2or1_pad2 (lo hi v : Nat) (rest : List Char)
    (hv99 : v ≤ 99) (hlo : lo ≤ v) (hhi : v ≤ hi) :
    parse2or1 lo hi (pad2 v ++ rest) = some (v, rest) := by
  have h1 : v / 10 ≤ 9 := by omega
  have h2 : v % 10 ≤ 9 := by omega
  have hsum : 10 * (v / 10) + v % 10 = v := by omega
  show parse2or1 lo hi (digitChar (v / 10) :: digitChar (v % 10) :: rest) = _
  simp only [parse2or1]
  rw [digitVal_digitChar h1, digitVal_digitChar h2, hsum,
    digitChar_isDigit h1, digitChar_isDigit h2]
  simp [hlo, hhi]

theorem parseYear4_pad4 (y : Nat) (hy : y ≤ 9999) :
    parseYear4 (pad4 y) = some y := by
  have h1 : y / 1000 ≤ 9 := by omega
  have h2 : y / 100 % 10 ≤ 9 := by omega
  have h3 : y / 10 % 10 ≤ 9 := by omega
  have h4 : y % 10 ≤ 9 := by omega
  have hsum : 1000 * (y / 1000) + 100 * (y / 100 % 10)
      + 10 * (y / 10 % 10) + y % 10 = y := by omega
  show parseYear4 [digitChar (y / 1000), digitChar (y / 100 % 10),
    digitChar (y / 10 % 10), digitChar (y % 10)] = some y
  simp only [parseYear4]
  rw [digitVal_digitChar h1, digitVal_digitChar h2, digitVal_digitChar h3,
    digitVal_digitChar h4, hsum, digitChar_isDigit h1, digitChar_isDigit h2,
    digitChar_isDigit h3, digitChar_isDigit h4]
  simp

theorem parseDMY_strftime (d : Date)
    (hv : isValidDate d.year d.month d.day = true) (hy2 : d.year ≤ 9999) :
    parseDMY (strftimeDMY d).data = some (d.day, d.month, d.year) := by
  have hv' := hv
  simp only [isValidDate, Bool.and_eq_true, decide_eq_true_eq] at hv'
  obtain ⟨⟨⟨hm1, hm2⟩, hd1⟩, hd2⟩ := hv'
  have hd31 : d.day ≤ 31 := le_trans hd2 (daysInMonth_le_31 _ _)
  have hdata : (strftimeDMY d).data
      = pad2 d.day ++ ('.' :: (pad2 d.month ++ ('.' :: pad4 d.year))) := rfl
  rw [hdata]
  simp only [parseDMY]
  rw [parse2or1_pad2 1 31 d.day _ (by omega) hd1 hd31]
  simp only [Option.some_bind]
  rw [show expectDot ('.' :: (pad2 d.month ++ ('.' :: pad4 d.year)))
      = some (pad2 d.month ++ ('.' :: pad4 d.year)) from rfl]
  simp only [Option.some_bind]
  rw [parse2or1_pad2 1 12 d.month _ (by omega) hm1 hm2]
  simp only [Option.some_bind]
  rw [show expectDot ('.' :: pad4 d.year) = some (pad4 d.year) from rfl]
  simp only [Option.some_bind]
  rw [parseYear4_pad4 d.year hy2]
  simp

theorem parse2or1_sound {lo hi : Nat} {cs rest : List Char} {v : Nat}
    (h : parse2or1 lo hi cs = some (v, rest)) :
    (∃ c1 c2, cs = c1 :: c2 :: rest ∧ c1.isDigit ∧ c2.isDigit ∧
      10 * digitVal c1 + digitVal c2 = v ∧ lo ≤ v ∧ v ≤ hi) ∨
    (∃ c1, cs = c1 :: rest ∧ c1.isDigit ∧ digitVal c1 = v ∧ 1 ≤ v ∧ v ≤ 9) := by
  match cs with
  | [] => simp [parse2or1] at h
  | [c1] =>
    right
    simp only [parse2or1] at h
    split at h
    · rename_i hc
      simp only [Bool.and_eq_true, decide_eq_true_eq] at hc
      cases h
      exact ⟨c1, rfl, hc.1.1, rfl, hc.1.2, hc.2⟩
    · cases h
  | c1 :: c2 :: r =>
    simp only [parse2or1] at h
    split at h
    · rename_i hc
      simp only [Bool.and_eq_true, decide_eq_true_eq] at hc
      left
      cases h
      exact ⟨c1, c2, rfl, hc.1.1.1, hc.1.1.2, rfl, hc.1.2, hc.2⟩
    · split at h
      · rename_i hc
        simp only [Bool.and_eq_true, decide_eq_true_eq] at hc
        right
        cases h
        exact ⟨c1, rfl, hc.1.1, rfl, hc.1.2, hc.2⟩
      · cases h

theorem expectDot_sound {cs rest : List Char} (h : expectDot cs = some rest) :
    cs = '.' :: rest := by
  unfold expectDot at h
  split at h
  · cases h; rfl
  · cases h

theorem parseYear4_sound {cs : List Char} {y : Nat}
    (h : parseYear4 cs = some y) : yearTok cs y := by
  unfold parseYear4 at h
  split at h
  · rename_i y1 y2 y3 y4
    split at h
    · rename_i hc
      simp only [Bool.and_eq_true] at hc
      cases h
      exact ⟨y1, y2, y3, y4, rfl, hc.1.1.1, hc.1.1.2, hc.1.2, hc.2, rfl⟩
    · cases h
  · cases h

theorem parseDMY_sound {cs : List Char} {d m y : Nat}
    (h : parseDMY cs = some (d, m, y)) :
    ∃ dcs mcs ycs, cs = dcs ++ '.' :: (mcs ++ '.' :: ycs) ∧
      numTok 31 dcs d ∧ numTok 12 mcs m ∧ yearTok ycs y := by
  unfold parseDMY at h
  rw [Option.bind_eq_some] at h
  obtain ⟨⟨dv, drest⟩, hdc, h⟩ := h
  rw [Option.bind_eq_some] at h
  obtain ⟨cs₂, hdot1, h⟩ := h
  rw [Option.bind_eq_some] at h
  obtain ⟨⟨mv, mrest⟩, hmc, h⟩ := h
  rw [Option.bind_eq_some] at h
  obtain ⟨cs₄, hdot2, h⟩ := h
  rw [Option.map_eq_some'] at h
  obtain ⟨yv, hy, hval⟩ := h
  simp only [Prod.mk.injEq] at hval
  obtain ⟨rfl, rfl, rfl⟩ := hval
  have hdt := parse2or1_sound hdc
  have hmt := parse2or1_sound hmc
  have h1 := expectDot_sound hdot1
  have h2 := expectDot_sound hdot2
  have hyy := parseYear4_sound hy
  subst h1 h2
  rcases hdt with ⟨c1, c2, hcs, p1, p2, p3, p4, p5⟩ | ⟨c1, hcs, p1, p2, p3, p4⟩ <;>
  rcases hmt with ⟨e1, e2, hcs2, q1, q2, q3, q4, q5⟩ | ⟨e1, hcs2, q1, q2, q3, q4⟩ <;>
    subst hcs <;> subst hcs2
  · exact ⟨[c1, c2], [e1, e2], cs₄, by simp,
      Or.inr ⟨c1, c2, rfl, p1, p2, p3, p4, p5⟩,
      Or.inr ⟨e1, e2, rfl, q1, q2, q3, q4, q5⟩, hyy⟩
  · exact ⟨[c1, c2], [e1], cs₄, by simp,
      Or.inr ⟨c1, c2, rfl, p1, p2, p3, p4, p5⟩,
      Or.inl ⟨e1, rfl, q1, q2, q3, q4⟩, hyy⟩
  · exact ⟨[c1], [e1, e2], cs₄, by simp,
      Or.inl ⟨c1, rfl, p1, p2, p3, p4⟩,
      Or.inr ⟨e1, e2, rfl, q1, q2, q3, q4, q5⟩, hyy⟩
  · exact ⟨[c1], [e1], cs₄, by simp,
      Or.inl ⟨c1, rfl, p1, p2, p3, p4⟩,
      Or.inl ⟨e1, rfl, q1, q2, q3, q4⟩, hyy⟩

theorem birthday_new_err_msg {s : String} {e : PyErr}
    (h : birthday_new s = .error e) :
    e = .valueError "Invalid date format. Use DD.MM.YYYY." := by
  unfold birthday_new at h
  split at h
  · cases h; rfl
  · split at h
    · cases h
    · cases h; rfl

theorem birthday_new_ok_sound {s : String} {dt : Date}
    (h : birthday_new s = .ok dt) : LaxDateMatch s := by
  unfold birthday_new at h
  split at h
  · cases h
  · rename_i d m y hp
    split at h
    · rename_i hcond
      simp only [Bool.and_eq_true, decide_eq_true_eq] at hcond
      obtain ⟨dcs, mcs, ycs, hdec, hdt, hmt, hyt⟩ := parseDMY_sound hp
      exact ⟨dcs, mcs, ycs, d, m, y, hdec, hdt, hmt, hyt, hcond.1, hcond.2⟩
    · cases h

/-- C4 (amended): the `Birthday` constructor fails with the fixed
invalid-format `ValueError` whenever the input is not a one-or-two-digit
day, dot, one-or-two-digit month, dot, four-digit year denoting a real
calendar date of a positive year; and every strict `DD.MM.YYYY` rendering
of a real date (year at least 1000) is accepted and reproduced exactly by
`strftime("%d.%m.%Y")`. -/
theorem birthday_validation_characterization :
    (∀ s : String, ¬ LaxDateMatch s →
      birthday_new s
        = .error (.valueError "Invalid date format. Use DD.MM.YYYY.")) ∧
    (∀ s : String, StrictDateString s →
      ∃ dt : Date, birthday_new s = .ok dt ∧ strftimeDMY dt = s) := by
  constructor
  · intro s hn
    cases hb : birthday_new s with
    | error e => rw [birthday_new_err_msg hb]
    | ok dt => exact absurd (birthday_new_ok_sound hb) hn
  · rintro s ⟨d, hy1, hy2, hv, rfl⟩
    refine ⟨d, ?_, rfl⟩
    unfold birthday_new
    rw [parseDMY_strftime d hv hy2]
    have hcond : (1 ≤ d.year && isValidDate d.year d.month d.day) = true := by
      rw [hv]
      simp
      omega
    simp [hcond]

/-- Witness for C4: `"15.05.1990"` is accepted and round-trips; `"xx"`
matches nothing and gets the fixed error. -/
theorem birthday_validation_characterization_witness :
    (∃ dt : Date, birthday_new "15.05.1990" = .ok dt
      ∧ strftimeDMY dt = "15.05.1990") ∧
    birthday_new "xx"
      = .error (.valueError "Invalid date format. Use DD.MM.YYYY.") := by
  constructor
  · exact birthday_validation_characterization.2 "15.05.1990"
      ⟨⟨1990, 5, 15⟩, by decide, by decide, by decide, by decide⟩
  · refine birthday_validation_characterization.1 "xx" ?_
    rintro ⟨dcs, mcs, ycs, d, m, y, hdec, hdt, hmt, hyt, -, -⟩
    have hlen := congrArg List.length hdec
    have h2 : ("xx" : String).data.length = 2 := rfl
    rw [h2] at hlen
    obtain ⟨c1, c2, c3, c4, rfl, -⟩ := hyt
    rcases hdt with ⟨c, rfl, -⟩ | ⟨a, b, rfl, -⟩ <;>
      rcases hmt with ⟨e, rfl, -⟩ | ⟨a2, b2, rfl, -⟩ <;>
        simp [List.length_append] at hlen

/-! ### C1 -/

/-- Whether a record's birthday (if any) exists as a date of year `yr` —
`Birthday.value.replace(year=yr)` succeeds exactly then. -/
def birthdayValidIn (yr : Nat) (r : Record) : Bool :=
  match r.birthday with
  | none => true
  | some b => isValidDate yr b.month b.day

theorem upcomingGo_filter (today : PyDateTime) (l : List Record)
    (hv : ∀ r ∈ l, birthdayValidIn today.date.year r = true) :
    upcomingGo today l = .ok (l.filter (inWindow today)) := by
  induction l with
  | nil => rfl
  | cons r rest ih =>
    have hvr := hv r (List.mem_cons_self r rest)
    have hvt : ∀ r' ∈ rest, birthdayValidIn today.date.year r' = true :=
      fun r' hm => hv r' (List.mem_cons_of_mem _ hm)
    cases hb : r.birthday with
    | none =>
      have hw : inWindow today r = false := by simp [inWindow, hb]
      simp only [upcomingGo, hb, List.filter_cons, hw]
      simpa using ih hvt
    | some b =>
      have hvb : isValidDate today.date.year b.month b.day = true := by
        simpa [birthdayValidIn, hb] using hvr
      have hrep : replaceYear b today.date.year
          = some ⟨today.date.year, b.month, b.day⟩ := by
        simp [replaceYear, hvb]
      have hw : inWindow today r
          = (decide (dtVal today
              ≤ dateOrdinal ⟨today.date.year, b.month, b.day⟩ * 86400)
            && decide (dateOrdinal ⟨today.date.year, b.month, b.day⟩ * 86400
              ≤ dtVal today + 7 * 86400)) := by
        simp only [inWindow, hb, hvb, Bool.true_and]
      by_cases hcond : (decide (dtVal today
            ≤ dateOrdinal ⟨today.date.year, b.month, b.day⟩ * 86400)
          && decide (dateOrdinal ⟨today.date.year, b.month, b.day⟩ * 86400
            ≤ dtVal today + 7 * 86400)) = true
      · simp only [upcomingGo, hb, hrep, hcond, if_true, ih hvt,
          List.filter_cons, hw]
      · simp only [upcomingGo, hb, hrep, hcond, if_false,
          List.filter_cons, hw, Bool.false_eq_true]
        simpa using ih hvt

theorem upcomingGo_raises (today : PyDateTime) (l : List Record)
    (hbad : ∃ r ∈ l, birthdayValidIn today.date.year r = false) :
    upcomingGo today l
      = .error (.valueError "day is out of range for month") := by
  induction l with
  | nil => obtain ⟨r, hm, -⟩ := hbad; cases hm
  | cons r rest ih =>
    obtain ⟨r', hm, hvr'⟩ := hbad
    rcases List.mem_cons.mp hm with rfl | hm'
    · cases hb : r'.birthday with
      | none => simp [birthdayValidIn, hb] at hvr'
      | some b =>
        have hvb : isValidDate today.date.year b.month b.day = false := by
          simpa [birthdayValidIn, hb] using hvr'
        simp only [upcomingGo, hb]
        rw [show replaceYear b today.date.year = none from by
          simp [replaceYear, hvb]]
    · have htail := ih ⟨r', hm', hvr'⟩
      cases hb : r.birthday with
      | none => simp only [upcomingGo, hb]; exact htail
      | some b =>
        cases hrep : replaceYear b today.date.year with
        | none => simp only [upcomingGo, hb, hrep]
        | some c =>
          simp only [upcomingGo, hb, hrep, htail]
          split <;> rfl

/-- C1 (amended): provided every stored birthday's month/day exists in
today's year, `upcoming_birthdays` returns, in insertion order, exactly the
stored records with a birthday whose same-year midnight candidate lies
between `datetime.today()` and seven days later; a birthday exactly seven
days ahead is included only when that date falls in the same calendar year
(its comparison date is built with today's year), and one eight or more
days ahead in the same year is excluded.  When some stored birthday is
February 29 and today's year is not a leap year, the query raises instead
of returning. -/
theorem upcoming_birthdays_window_characterization
    (book : Book) (today : PyDateTime) (htod : today.tod < 86400) :
    ((∀ r ∈ bookValues book, birthdayValidIn today.date.year r = true) →
      upcoming_birthdays book today
          = .ok ((bookValues book).filter (inWindow today)) ∧
      (∀ r ∈ bookValues book, ∀ b, r.birthday = some b →
        dateOrdinal ⟨today.date.year, b.month, b.day⟩
            = dateOrdinal today.date + 7 →
        r ∈ (bookValues book).filter (inWindow today)) ∧
      (∀ r ∈ bookValues book, ∀ b, r.birthday = some b →
        dateOrdinal today.date + 8
            ≤ dateOrdinal ⟨today.date.year, b.month, b.day⟩ →
        r ∉ (bookValues book).filter (inWindow today))) ∧
    ((∃ r ∈ bookValues book, birthdayValidIn today.date.year r = false) →
      upcoming_birthdays book today
        = .error (.valueError "day is out of range for month")) := by
  constructor
  · intro hv
    refine ⟨upcomingGo_filter today _ hv, ?_, ?_⟩
    · intro r hm b hb h7
      rw [List.mem_filter]
      refine ⟨hm, ?_⟩
      have hvb : isValidDate today.date.year b.month b.day = true := by
        simpa [birthdayValidIn, hb] using hv r hm
      simp only [inWindow, hb, hvb, Bool.true_and, Bool.and_eq_true,
        decide_eq_true_eq]
      rw [h7]
      unfold dtVal
      omega
    · intro r hm b hb h8 hmem
      rw [List.mem_filter] at hmem
      have hw := hmem.2
      simp only [inWindow, hb, Bool.and_eq_true, decide_eq_true_eq] at hw
      obtain ⟨⟨-, -⟩, h2⟩ := hw
      unfold dtVal at h2
      omega
  · intro hbad
    exact upcomingGo_raises today _ hbad

/-- Witness for C1: on 2024-07-05 a book with birthdays on July 10 and
July 12 keeps both (July 12 being exactly seven days ahead). -/
theorem upcoming_birthdays_window_characterization_witness :
    upcoming_birthdays
        [("A", ⟨"A", [], some ⟨2000, 7, 10⟩⟩), ("B", ⟨"B", [], some ⟨2001, 7, 12⟩⟩)]
        ⟨⟨2024, 7, 5⟩, 100⟩
      = .ok ((bookValues
          [("A", ⟨"A", [], some ⟨2000, 7, 10⟩⟩), ("B", ⟨"B", [], some ⟨2001, 7, 12⟩⟩)]).filter
          (inWindow ⟨⟨2024, 7, 5⟩, 100⟩)) ∧
    (⟨"B", [], some ⟨2001, 7, 12⟩⟩ : Record) ∈ (bookValues
        [("A", ⟨"A", [], some ⟨2000, 7, 10⟩⟩), ("B", ⟨"B", [], some ⟨2001, 7, 12⟩⟩)]).filter
        (inWindow ⟨⟨2024, 7, 5⟩, 100⟩) := by
  have h := upcoming_birthdays_window_characterization
    [("A", ⟨"A", [], some ⟨2000, 7, 10⟩⟩), ("B", ⟨"B", [], some ⟨2001, 7, 12⟩⟩)]
    ⟨⟨2024, 7, 5⟩, 100⟩ (by decide)
  refine ⟨(h.1 (by decide)).1, ?_⟩
  exact (h.1 (by decide)).2.1 ⟨"B", [], some ⟨2001, 7, 12⟩⟩ (by decide)
    ⟨2001, 7, 12⟩ rfl (by decide)

/-! ### C2 -/

theorem fdiv_day_sub (A T s : Nat) (hs : s < 86400) :
    Int.fdiv ((A : Int) * 86400 - ((T * 86400 + s : Nat) : Int)) 86400
      = (A : Int) - (T : Int) - (if 0 < s then 1 else 0) := by
  rw [Int.fdiv_eq_ediv _ (by norm_num)]
  push_cast
  by_cases h0 : 0 < s
  · rw [if_pos h0]; omega
  · rw [if_neg h0]; omega

/-- C2 (amended): `days_to_birthday` returns `None` when no birthday is
set.  Otherwise the candidate is the birthday's month/day in today's year
at midnight, compared against the full `datetime.today()` (date and time):
the year is advanced exactly when the candidate's date is strictly before
today's date, or equals it and the clock is past midnight — so a birthday
falling on today itself IS advanced except at exactly midnight.  The value
returned is the day difference (candidate date minus today's date), less
one when the clock is past midnight, Python's floor of the timedelta. -/
theorem days_to_birthday_characterization (r : Record) (today : PyDateTime)
    (htod : today.tod < 86400) :
    (r.birthday = none → days_to_birthday r today = .ok none) ∧
    (∀ b, r.birthday = some b →
      isValidDate today.date.year b.month b.day = true →
      isValidDate (today.date.year + 1) b.month b.day = true →
      ((dateOrdinal ⟨today.date.year, b.month, b.day⟩ < dateOrdinal today.date
          ∨ (dateOrdinal ⟨today.date.year, b.month, b.day⟩
                = dateOrdinal today.date ∧ 0 < today.tod)) →
        days_to_birthday r today = .ok (some
          ((dateOrdinal ⟨today.date.year + 1, b.month, b.day⟩ : Int)
            - (dateOrdinal today.date : Int)
            - (if 0 < today.tod then 1 else 0)))) ∧
      ((dateOrdinal today.date < dateOrdinal ⟨today.date.year, b.month, b.day⟩
          ∨ (dateOrdinal ⟨today.date.year, b.month, b.day⟩
                = dateOrdinal today.date ∧ today.tod = 0)) →
        days_to_birthday r today = .ok (some
          ((dateOrdinal ⟨today.date.year, b.month, b.day⟩ : Int)
            - (dateOrdinal today.date : Int)
            - (if 0 < today.tod then 1 else 0))))) := by
  constructor
  · intro hb; simp [days_to_birthday, hb]
  · intro b hb hv1 hv2
    have hrep1 : replaceYear b today.date.year
        = some ⟨today.date.year, b.month, b.day⟩ := by
      simp [replaceYear, hv1]
    have hrep2 : replaceYear (⟨today.date.year, b.month, b.day⟩ : Date)
        (today.date.year + 1) = some ⟨today.date.year + 1, b.month, b.day⟩ := by
      simp [replaceYear, hv2]
    constructor
    · intro hadv
      have hlt : dateOrdinal ⟨today.date.year, b.month, b.day⟩ * 86400
          < dtVal today := by
        unfold dtVal
        rcases hadv with h | ⟨h, h0⟩ <;> omega
      simp only [days_to_birthday, hb, hrep1, if_pos hlt, hrep2]
      rw [show dtVal today = (dateOrdinal today.date * 86400 + today.tod : Nat)
        from rfl]
      rw [fdiv_day_sub _ _ _ htod]
    · intro hsame
      have hge : ¬ (dateOrdinal ⟨today.date.year, b.month, b.day⟩ * 86400
          < dtVal today) := by
        unfold dtVal
        rcases hsame with h | ⟨h, h0⟩ <;> omega
      simp only [days_to_birthday, hb, hrep1, if_neg hge]
      rw [show dtVal today = (dateOrdinal today.date * 86400 + today.tod : Nat)
        from rfl]
      rw [fdiv_day_sub _ _ _ htod]

/-- Witness for C2: no birthday gives `None`; a birthday five days ahead at
one hour past midnight gives 4 (the floor of 4 days 23 hours); a birthday
falling today at noon is advanced to next year, giving 364. -/
theorem days_to_birthday_characterization_witness :
    days_to_birthday ⟨"Noah", [], none⟩ ⟨⟨2024, 5, 15⟩, 3600⟩ = .ok none ∧
    days_to_birthday ⟨"Alice", [], some ⟨1990, 5, 20⟩⟩ ⟨⟨2024, 5, 15⟩, 3600⟩
      = .ok (some 4) ∧
    days_to_birthday ⟨"Bob", [], some ⟨2000, 5, 15⟩⟩ ⟨⟨2024, 5, 15⟩, 43200⟩
      = .ok (some 364) := by
  refine ⟨(days_to_birthday_characterization ⟨"Noah", [], none⟩
    ⟨⟨2024, 5, 15⟩, 3600⟩ (by decide)).1 rfl, ?_, ?_⟩
  · have h := ((days_to_birthday_characterization ⟨"Alice", [], some ⟨1990, 5, 20⟩⟩
      ⟨⟨2024, 5, 15⟩, 3600⟩ (by decide)).2 ⟨1990, 5, 20⟩ rfl (by decide)
      (by decide)).2 (Or.inl (by decide))
    rw [h]
    simp only [Except.ok.injEq, Option.some.injEq]
    decide
  · have h := ((days_to_birthday_characterization ⟨"Bob", [], some ⟨2000, 5, 15⟩⟩
      ⟨⟨2024, 5, 15⟩, 43200⟩ (by decide)).2 ⟨2000, 5, 15⟩ rfl (by decide)
      (by decide)).1 (Or.inr ⟨by decide, by decide⟩)
    rw [h]
    simp only [Except.ok.injEq, Option.some.injEq]
    decide

/-! ### C6 -/

theorem show_phone_snd (args : List String) (book : Book) :
    (show_phone args book).2 = book := by
  unfold show_phone
  repeat' split
  all_goals rfl

theorem show_birthday_snd (args : List String) (book : Book) :
    (show_birthday args book).2 = book := by
  unfold show_birthday
  repeat' split
  all_goals rfl

theorem show_upcoming_birthdays_snd (today : PyDateTime) (args : List String)
    (book : Book) : (show_upcoming_birthdays today args book).2 = book := by
  unfold show_upcoming_birthdays
  repeat' split
  all_goals rfl

theorem change_contact_ok_or_unchanged (args : List String) (book : Book) :
    (change_contact args book).2 = book ∨
    (change_contact args book).1 = .ok "Phone number updated." := by
  unfold change_contact
  split
  · rename_i name old nw
    cases hf : bookFind book name with
    | some r =>
      cases he : edit_phone r.phones old nw with
      | ok ps => right; simp [hf, he]
      | error e2 => left; simp [hf, he]
    | none => left; simp [hf]
  · left
    split <;> rfl

theorem add_birthday_ok_or_unchanged (args : List String) (book : Book) :
    (add_birthday args book).2 = book ∨
    (add_birthday args book).1 = .ok "Birthday added." := by
  unfold add_birthday
  split
  · rename_i name bs rest
    cases hf : bookFind book name with
    | some r =>
      cases he : birthday_new bs with
      | ok d => right; simp [hf, he]
      | error e2 => left; simp [hf, he]
    | none => left; simp [hf]
  · left; rfl

/-- C6 (amended): every handler except `add_contact` is atomic — the three
show handlers never touch the directory at all, and `change_contact` and
`add_birthday` leave it unchanged whenever they raise or report
"Contact not found.".  `add_contact` itself is not atomic: with a fresh
name and an invalid phone or birthday it creates (and keeps) the contact
before the validation failure, as the counterexample shows. -/
theorem handlers_atomic_except_add_contact :
    (∀ args book, (show_phone args book).2 = book) ∧
    (∀ args book, (show_birthday args book).2 = book) ∧
    (∀ today args book, (show_upcoming_birthdays today args book).2 = book) ∧
    (∀ args book e, (change_contact args book).1 = .error e →
      (change_contact args book).2 = book) ∧
    (∀ args book, (change_contact args book).1 = .ok "Contact not found." →
      (change_contact args book).2 = book) ∧
    (∀ args book e, (add_birthday args book).1 = .error e →
      (add_birthday args book).2 = book) ∧
    (∀ args book, (add_birthday args book).1 = .ok "Contact not found." →
      (add_birthday args book).2 = book) := by
  refine ⟨show_phone_snd, show_birthday_snd, show_upcoming_birthdays_snd,
    ?_, ?_, ?_, ?_⟩
  · intro args book e h
    rcases change_contact_ok_or_unchanged args book with h2 | h2
    · exact h2
    · rw [h] at h2; cases h2
  · intro args book h
    rcases change_contact_ok_or_unchanged args book with h2 | h2
    · exact h2
    · rw [h] at h2
      exact absurd (Except.ok.inj h2) (by decide)
  · intro args book e h
    rcases add_birthday_ok_or_unchanged args book with h2 | h2
    · exact h2
    · rw [h] at h2; cases h2
  · intro args book h
    rcases add_birthday_ok_or_unchanged args book with h2 | h2
    · exact h2
    · rw [h] at h2
      exact absurd (Except.ok.inj h2) (by decide)

/-- Witness for C6: three concrete failing calls leave the empty book
unchanged — `change` with too few effects (contact absent), `add-birthday`
on an absent contact, and `change` with no arguments (an unpacking error). -/
theorem handlers_atomic_except_add_contact_witness :
    (change_contact ["Alice", "1234567890", "0000000000"] []).2 = ([] : Book) ∧
    (add_birthday ["Alice", "15.05.1990"] []).2 = ([] : Book) ∧
    (change_contact [] []).2 = ([] : Book) :=
  ⟨handlers_atomic_except_add_contact.2.2.2.2.1
      ["Alice", "1234567890", "0000000000"] [] rfl,
   handlers_atomic_except_add_contact.2.2.2.2.2.2 ["Alice", "15.05.1990"] [] rfl,
   handlers_atomic_except_add_contact.2.2.2.1 [] []
      (.valueError "not enough values to unpack (expected 3, got 0)") rfl⟩

/-! ### C8 -/

theorem phone_new_err_shape {p : String} {e : PyErr}
    (h : phone_new p = .error e) : ∃ m, e = .valueError m := by
  unfold phone_new at h
  split at h
  · cases h
  · cases h; exact ⟨_, rfl⟩

theorem edit_phone_err_shape {phones : List String} {old nw : String} {e : PyErr}
    (h : edit_phone phones old nw = .error e) : ∃ m, e = .valueError m := by
  induction phones with
  | nil => unfold edit_phone at h; cases h; exact ⟨_, rfl⟩
  | cons p rest ih =>
    unfold edit_phone at h
    split at h
    · split at h
      · cases h
      · rename_i e2 he2
        cases h
        exact phone_new_err_shape he2
    · split at h
      · cases h
      · rename_i e2 he2
        cases h
        exact ih he2

theorem upcomingGo_err_shape {today : PyDateTime} {l : List Record} {e : PyErr}
    (h : upcomingGo today l = .error e) : ∃ m, e = .valueError m := by
  induction l with
  | nil => cases h
  | cons r rest ih =>
    unfold upcomingGo at h
    split at h
    · exact ih h
    · split at h
      · cases h; exact ⟨_, rfl⟩
      · split at h
        · split at h
          · cases h
          · rename_i e2 he2
            cases h
            exact ih he2
        · exact ih h

theorem addContactBdStep_err_shape {name : String} {bd : Option String}
    {msg : String} {book : Book} {e : PyErr}
    (h : (addContactBdStep name bd msg book).1 = .error e) :
    ∃ m, e = .valueError m := by
  unfold addContactBdStep at h
  split at h
  · split at h
    · split at h
      · rename_i e2 he2
        cases h
        exact ⟨_, birthday_new_err_msg he2⟩
      · cases h
    · cases h
  · cases h

theorem addContactPhoneStep_err_shape {name phone : String} {bd : Option String}
    {msg : String} {book : Book} {e : PyErr}
    (h : (addContactPhoneStep name phone bd msg book).1 = .error e) :
    ∃ m, e = .valueError m := by
  unfold addContactPhoneStep at h
  split at h
  · split at h
    · rename_i e2 he2
      cases h
      exact phone_new_err_shape he2
    · exact addContactBdStep_err_shape h
  · exact addContactBdStep_err_shape h

theorem add_contact_err_shape {args : List String} {book : Book} {e : PyErr}
    (h : (add_contact args book).1 = .error e) : ∃ m, e = .valueError m := by
  unfold add_contact at h
  split at h
  · split at h
    · exact addContactPhoneStep_err_shape h
    · split at h
      · cases h; exact ⟨_, rfl⟩
      · exact addContactPhoneStep_err_shape h
  · cases h; exact ⟨_, rfl⟩

theorem change_contact_err_shape {args : List String} {book : Book} {e : PyErr}
    (h : (change_contact args book).1 = .error e) : ∃ m, e = .valueError m := by
  unfold change_contact at h
  split at h
  · split at h
    · split at h
      · cases h
      · rename_i e2 he2
        cases h
        exact edit_phone_err_shape he2
    · cases h
  · split at h
    · cases h; exact ⟨_, rfl⟩
    · cases h; exact ⟨_, rfl⟩

theorem show_phone_err_shape {args : List String} {book : Book} {e : PyErr}
    (h : (show_phone args book).1 = .error e) : ∃ m, e = .valueError m := by
  unfold show_phone at h
  split at h
  · split at h <;> cases h
  · cases h; exact ⟨_, rfl⟩

theorem add_birthday_err_shape {args : List String} {book : Book} {e : PyErr}
    (h : (add_birthday args book).1 = .error e) : ∃ m, e = .valueError m := by
  unfold add_birthday at h
  split at h
  · split at h
    · split at h
      · rename_i e2 he2
        cases h
        exact ⟨_, birthday_new_err_msg he2⟩
      · cases h
    · cases h
  · cases h; exact ⟨_, rfl⟩

theorem show_birthday_err_shape {args : List String} {book : Book} {e : PyErr}
    (h : (show_birthday args book).1 = .error e) : ∃ m, e = .valueError m := by
  unfold show_birthday at h
  split at h
  · split at h
    · split at h <;> cases h
    · cases h
  · cases h; exact ⟨_, rfl⟩

theorem show_upcoming_birthdays_err_shape {today : PyDateTime}
    {args : List String} {book : Book} {e : PyErr}
    (h : (show_upcoming_birthdays today args book).1 = .error e) :
    ∃ m, e = .valueError m := by
  unfold show_upcoming_birthdays at h
  split at h
  · rename_i e2 he2
    cases h
    exact upcomingGo_err_shape he2
  · split at h <;> cases h

theorem runWrapped_out_of (res : Except PyErr String × Book)
    (h : ∀ e, res.1 = .error e → ∃ m, e = .valueError m) :
    ∃ s b, runWrapped res = .out s b := by
  obtain ⟨x, bk⟩ := res
  cases x with
  | ok s => exact ⟨s, bk, rfl⟩
  | error e =>
    obtain ⟨m, rfl⟩ := h e rfl
    exact ⟨m, bk, rfl⟩

/-- C8 (amended): a line whose whitespace-split is nonempty and whose
command is not `all` never crashes the loop: the step either prints a
string and continues, or terminates normally, and normal termination
happens exactly when the command lower-cases to `close` or `exit`.  (The
empty line and the `all` command do crash, as the counterexample shows.) -/
theorem stepLine_no_crash_characterization (today : PyDateTime) (line : String)
    (book : Book) (cmd : String) (args : List String)
    (hsplit : pySplit line = cmd :: args) (hall : pyLower cmd ≠ "all") :
    ((∃ s b, stepLine today line book = .out s b) ∨
      stepLine today line book = .bye) ∧
    (stepLine today line book = .bye ↔
      (pyLower cmd = "close" ∨ pyLower cmd = "exit")) := by
  have hred : stepLine today line book
      = (if pyLower cmd = "close" ∨ pyLower cmd = "exit" then StepRes.bye
        else if pyLower cmd = "hello" then runWrapped (greet args book)
        else if pyLower cmd = "add" then runWrapped (add_contact args book)
        else if pyLower cmd = "change" then
          runWrapped (change_contact args book)
        else if pyLower cmd = "phone" then runWrapped (show_phone args book)
        else if pyLower cmd = "all" then
          .crash (.typeError
            "show_all_contacts() takes 1 positional argument but 2 were given")
        else if pyLower cmd = "add-birthday" then
          runWrapped (add_birthday args book)
        else if pyLower cmd = "show-birthday" then
          runWrapped (show_birthday args book)
        else if pyLower cmd = "birthdays" then
          runWrapped (show_upcoming_birthdays today args book)
        else .out "Invalid command." book) := by
    unfold stepLine parse_input
    rw [hsplit]
  rw [hred]
  by_cases h1 : pyLower cmd = "close" ∨ pyLower cmd = "exit"
  · rw [if_pos h1]
    exact ⟨Or.inr rfl, by simp [h1]⟩
  · rw [if_neg h1]
    have hout : ∀ res : StepRes, (∃ s b, res = .out s b) →
        ((∃ s b, res = .out s b) ∨ res = .bye) ∧
          (res = .bye ↔ (pyLower cmd = "close" ∨ pyLower cmd = "exit")) := by
      rintro res ⟨s, b, rfl⟩
      exact ⟨Or.inl ⟨s, b, rfl⟩, by simp [h1]⟩
    by_cases h2 : pyLower cmd = "hello"
    · rw [if_pos h2]
      exact hout _ (runWrapped_out_of _ (fun e h => by cases h))
    rw [if_neg h2]
    by_cases h3 : pyLower cmd = "add"
    · rw [if_pos h3]
      exact hout _ (runWrapped_out_of _ (fun e h => add_contact_err_shape h))
    rw [if_neg h3]
    by_cases h4 : pyLower cmd = "change"
    · rw [if_pos h4]
      exact hout _ (runWrapped_out_of _ (fun e h => change_contact_err_shape h))
    rw [if_neg h4]
    by_cases h5 : pyLower cmd = "phone"
    · rw [if_pos h5]
      exact hout _ (runWrapped_out_of _ (fun e h => show_phone_err_shape h))
    rw [if_neg h5]
    rw [if_neg hall]
    by_cases h6 : pyLower cmd = "add-birthday"
    · rw [if_pos h6]
      exact hout _ (runWrapped_out_of _ (fun e h => add_birthday_err_shape h))
    rw [if_neg h6]
    by_cases h7 : pyLower cmd = "show-birthday"
    · rw [if_pos h7]
      exact hout _ (runWrapped_out_of _ (fun e h => show_birthday_err_shape h))
    rw [if_neg h7]
    by_cases h8 : pyLower cmd = "birthdays"
    · rw [if_pos h8]
      exact hout _ (runWrapped_out_of _
        (fun e h => show_upcoming_birthdays_err_shape h))
    rw [if_neg h8]
    exact hout _ ⟨_, _, rfl⟩

/-- Witness for C8: the line `"CLOSE now"` terminates normally, and the
line `"change"` (a recognized command with missing arguments) prints and
continues. -/
theorem stepLine_no_crash_characterization_witness :
    stepLine ⟨⟨2024, 1, 1⟩, 0⟩ "CLOSE now" [] = .bye ∧
    ((∃ s b, stepLine ⟨⟨2024, 1, 1⟩, 0⟩ "change" [] = .out s b) ∨
      stepLine ⟨⟨2024, 1, 1⟩, 0⟩ "change" [] = .bye) := by
  constructor
  · exact (stepLine_no_crash_characterization ⟨⟨2024, 1, 1⟩, 0⟩ "CLOSE now" []
      "CLOSE" ["now"] rfl (by decide)).2.mpr (Or.inl (by decide))
  · exact (stepLine_no_crash_characterization ⟨⟨2024, 1, 1⟩, 0⟩ "change" []
      "change" [] rfl (by decide)).1

/-! ### C10 -/

theorem input_error_snd (res : Except PyErr String × Book) :
    (input_error res).2 = res.2 := by
  obtain ⟨x, bk⟩ := res
  cases x with
  | ok s => rfl
  | error e => cases e <;> rfl

theorem bookFind_cons (key : String) (r : Record) (rest : Book) (k : String) :
    bookFind ((key, r) :: rest) k
      = if key = k then some r else bookFind rest k := rfl

theorem bookModify_cons (key : String) (r : Record) (rest : Book) (n : String)
    (f : Record → Record) :
    bookModify ((key, r) :: rest) n f
      = (key, if key = n then f r else r) :: bookModify rest n f := by
  show (if key = n then (key, f r) else (key, r)) :: _ = _
  split <;> rfl

theorem bookFind_bookModify (book : Book) (n : String) (f : Record → Record)
    (k : String) :
    bookFind (bookModify book n f) k
      = if n = k then (bookFind book k).map f else bookFind book k := by
  induction book with
  | nil =>
    show (none : Option Record) = if n = k then Option.map f none else none
    split <;> rfl
  | cons kv rest ih =>
    obtain ⟨key, r⟩ := kv
    rw [bookModify_cons, bookFind_cons, bookFind_cons]
    by_cases h2 : key = k
    · rw [if_pos h2, if_pos h2]
      by_cases h1 : key = n
      · rw [if_pos h1]
        rw [show n = k from h1 ▸ h2, if_pos rfl]
        rfl
      · rw [if_neg h1]
        rw [if_neg (show ¬ (n = k) from fun he => h1 (h2 ▸ he.symm))]
    · rw [if_neg h2, if_neg h2, ih]

theorem bookFind_append_single (book : Book) (n : String) (r : Record)
    (k : String) :
    bookFind (book ++ [(n, r)]) k
      = match bookFind book k with
        | some x => some x
        | none => if n = k then some r else none := by
  induction book with
  | nil => rfl
  | cons kv rest ih =>
    obtain ⟨key, r'⟩ := kv
    show (if key = k then some r' else bookFind (rest ++ [(n, r)]) k) = _
    rw [bookFind_cons]
    by_cases h : key = k
    · rw [if_pos h, if_pos h]
    · rw [if_neg h, if_neg h, ih]

theorem keyInv_bookModify (book : Book) (n : String) (f : Record → Record)
    (hf : ∀ r, (f r).name = r.name) (h : KeyInv book) :
    KeyInv (bookModify book n f) := by
  intro p hp
  rw [bookModify] at hp
  obtain ⟨q, hq, hpq⟩ := List.mem_map.mp hp
  by_cases hqn : q.1 = n
  · rw [if_pos hqn] at hpq
    rw [← hpq]
    show (f q.2).name = q.1
    rw [hf q.2]
    exact h q hq
  · rw [if_neg hqn] at hpq
    rw [← hpq]
    exact h q hq

theorem keyInv_bookAdd (book : Book) (r : Record) (h : KeyInv book) :
    KeyInv (bookAdd book r) := by
  unfold bookAdd
  split
  · intro p hp
    rw [bookModify] at hp
    obtain ⟨q, hq, hpq⟩ := List.mem_map.mp hp
    by_cases hqn : q.1 = r.name
    · rw [if_pos hqn] at hpq
      rw [← hpq]
      exact hqn.symm
    · rw [if_neg hqn] at hpq
      rw [← hpq]
      exact h q hq
  · intro p hp
    rcases List.mem_append.mp hp with h1 | h1
    · exact h p h1
    · rw [List.mem_singleton] at h1
      rw [h1]

theorem keyInv_addContactBdStep (name : String) (bd : Option String)
    (msg : String) (book : Book) (h : KeyInv book) :
    KeyInv (addContactBdStep name bd msg book).2 := by
  unfold addContactBdStep
  split
  · split
    · split
      · exact h
      · rename_i d hd
        exact keyInv_bookModify book name
          (fun r => { r with birthday := some d }) (fun r => rfl) h
    · exact h
  · exact h

theorem keyInv_addContactPhoneStep (name phone : String) (bd : Option String)
    (msg : String) (book : Book) (h : KeyInv book) :
    KeyInv (addContactPhoneStep name phone bd msg book).2 := by
  unfold addContactPhoneStep
  split
  · split
    · exact h
    · rename_i p hp
      exact keyInv_addContactBdStep name bd msg _
        (keyInv_bookModify book name
          (fun r => { r with phones := r.phones ++ [p] }) (fun r => rfl) h)
  · exact keyInv_addContactBdStep name bd msg book h

theorem keyInv_add_contact (args : List String) (book : Book)
    (h : KeyInv book) : KeyInv (add_contact args book).2 := by
  unfold add_contact
  split
  · rename_i name phone other
    split
    · exact keyInv_addContactPhoneStep _ _ _ _ _ h
    · split
      · exact h
      · exact keyInv_addContactPhoneStep _ _ _ _ _
          (keyInv_bookAdd book ⟨name, [], none⟩ h)
  · exact h

theorem keyInv_change_contact (args : List String) (book : Book)
    (h : KeyInv book) : KeyInv (change_contact args book).2 := by
  unfold change_contact
  split
  · rename_i name old nw
    split
    · split
      · rename_i ps hps
        exact keyInv_bookModify book name
          (fun rc => { rc with phones := ps }) (fun rc => rfl) h
      · exact h
    · exact h
  · split
    · exact h
    · exact h

theorem keyInv_add_birthday (args : List String) (book : Book)
    (h : KeyInv book) : KeyInv (add_birthday args book).2 := by
  unfold add_birthday
  split
  · rename_i name bs rest
    split
    · split
      · exact h
      · rename_i d hd
        exact keyInv_bookModify book name
          (fun r => { r with birthday := some d }) (fun r => rfl) h
    · exact h
  · exact h

theorem keyInv_applyCmd (today : PyDateTime) (c : Cmd) (args : List String)
    (book : Book) (h : KeyInv book) : KeyInv (applyCmd today c args book) := by
  cases c <;> simp only [applyCmd, input_error_snd]
  case hello => exact h
  case add => exact keyInv_add_contact args book h
  case change => exact keyInv_change_contact args book h
  case phone => rw [show_phone_snd args book]; exact h
  case all => exact h
  case addBd => exact keyInv_add_birthday args book h
  case showBd => rw [show_birthday_snd args book]; exact h
  case birthdays => rw [show_upcoming_birthdays_snd today args book]; exact h

theorem bookFind_bookModify_name (book : Book) (n : String)
    (f : Record → Record) (k : String) (r : Record)
    (hf : ∀ x, (f x).name = x.name) (h : bookFind book k = some r) :
    ∃ r2, bookFind (bookModify book n f) k = some r2 ∧ r2.name = r.name := by
  rw [bookFind_bookModify]
  by_cases hnk : n = k
  · rw [if_pos hnk, h]
    exact ⟨f r, rfl, hf r⟩
  · rw [if_neg hnk, h]
    exact ⟨r, rfl, rfl⟩

theorem bookFind_append_of_found (book : Book) (n : String) (r : Record)
    (k : String) (r0 : Record) (h : bookFind book k = some r0) :
    bookFind (book ++ [(n, r)]) k = some r0 := by
  rw [bookFind_append_single, h]

theorem find_preserve_addContactBdStep (name : String) (bd : Option String)
    (msg : String) (book : Book) (k : String) (r : Record)
    (h : bookFind book k = some r) :
    ∃ r2, bookFind (addContactBdStep name bd msg book).2 k = some r2 ∧
      r2.name = r.name := by
  unfold addContactBdStep
  split
  · split
    · split
      · exact ⟨r, h, rfl⟩
      · rename_i d hd
        exact bookFind_bookModify_name book name
          (fun x => { x with birthday := some d }) k r (fun x => rfl) h
    · exact ⟨r, h, rfl⟩
  · exact ⟨r, h, rfl⟩

theorem find_preserve_addContactPhoneStep (name phone : String)
    (bd : Option String) (msg : String) (book : Book) (k : String) (r : Record)
    (h : bookFind book k = some r) :
    ∃ r2, bookFind (addContactPhoneStep name phone bd msg book).2 k = some r2 ∧
      r2.name = r.name := by
  unfold addContactPhoneStep
  split
  · split
    · exact ⟨r, h, rfl⟩
    · rename_i p hp
      obtain ⟨r2, h2, hn2⟩ := bookFind_bookModify_name book name
        (fun x => { x with phones := x.phones ++ [p] }) k r (fun x => rfl) h
      obtain ⟨r3, h3, hn3⟩ := find_preserve_addContactBdStep name bd msg _ k r2 h2
      exact ⟨r3, h3, hn3.trans hn2⟩
  · exact find_preserve_addContactBdStep name bd msg book k r h

theorem find_preserve_add_contact (args : List String) (book : Book)
    (k : String) (r : Record) (h : bookFind book k = some r) :
    ∃ r2, bookFind (add_contact args book).2 k = some r2 ∧
      r2.name = r.name := by
  unfold add_contact
  split
  · rename_i name phone other
    split
    · exact find_preserve_addContactPhoneStep _ _ _ _ _ k r h
    · rename_i hnone
      split
      · exact ⟨r, h, rfl⟩
      · have hadd : bookAdd book ⟨name, [], none⟩
            = book ++ [(name, ⟨name, [], none⟩)] := by
          unfold bookAdd
          rw [show bookFind book (Record.mk name [] none).name = none from hnone]
          rfl
        have h2 : bookFind (bookAdd book ⟨name, [], none⟩) k = some r := by
          rw [hadd]
          exact bookFind_append_of_found book name _ k r h
        exact find_preserve_addContactPhoneStep _ _ _ _ _ k r h2
  · exact ⟨r, h, rfl⟩

theorem find_preserve_change_contact (args : List String) (book : Book)
    (k : String) (r : Record) (h : bookFind book k = some r) :
    ∃ r2, bookFind (change_contact args book).2 k = some r2 ∧
      r2.name = r.name := by
  unfold change_contact
  split
  · rename_i name old nw
    split
    · split
      · rename_i ps hps
        exact bookFind_bookModify_name book name
          (fun rc => { rc with phones := ps }) k r (fun x => rfl) h
      · exact ⟨r, h, rfl⟩
    · exact ⟨r, h, rfl⟩
  · split
    · exact ⟨r, h, rfl⟩
    · exact ⟨r, h, rfl⟩

theorem find_preserve_add_birthday (args : List String) (book : Book)
    (k : String) (r : Record) (h : bookFind book k = some r) :
    ∃ r2, bookFind (add_birthday args book).2 k = some r2 ∧
      r2.name = r.name := by
  unfold add_birthday
  split
  · rename_i name bs rest
    split
    · split
      · exact ⟨r, h, rfl⟩
      · rename_i d hd
        exact bookFind_bookModify_name book name
          (fun x => { x with birthday := some d }) k r (fun x => rfl) h
    · exact ⟨r, h, rfl⟩
  · exact ⟨r, h, rfl⟩

theorem find_preserve_applyCmd (today : PyDateTime) (c : Cmd)
    (args : List String) (book : Book) (k : String) (r : Record)
    (h : bookFind book k = some r) :
    ∃ r2, bookFind (applyCmd today c args book) k = some r2 ∧
      r2.name = r.name := by
  cases c <;> simp only [applyCmd, input_error_snd]
  case hello => exact ⟨r, h, rfl⟩
  case add => exact find_preserve_add_contact args book k r h
  case change => exact find_preserve_change_contact args book k r h
  case phone => rw [show_phone_snd args book]; exact ⟨r, h, rfl⟩
  case all => exact ⟨r, h, rfl⟩
  case addBd => exact find_preserve_add_birthday args book k r h
  case showBd => rw [show_birthday_snd args book]; exact ⟨r, h, rfl⟩
  case birthdays =>
    rw [show_upcoming_birthdays_snd today args book]
    exact ⟨r, h, rfl⟩

/-- C10: after any sequence of handler operations from the empty directory,
every stored key equals the name of the record under it; and one handler
step never renames an existing record — the record reachable under a key
keeps its name. -/
theorem book_key_consistency (today : PyDateTime) :
    (∀ ops : List (Cmd × List String), KeyInv (runCmds today ops)) ∧
    (∀ c args book k r, bookFind book k = some r →
      ∃ r2, bookFind (applyCmd today c args book) k = some r2 ∧
        r2.name = r.name) := by
  constructor
  · intro ops
    have main : ∀ (l : List (Cmd × List String)) (b : Book), KeyInv b →
        KeyInv (List.foldl (fun bk p => applyCmd today p.1 p.2 bk) b l) := by
      intro l
      induction l with
      | nil => intro b hb; exact hb
      | cons p rest ih =>
        intro b hb
        exact ih _ (keyInv_applyCmd today p.1 p.2 b hb)
    exact main ops [] (fun p hp => absurd hp (List.not_mem_nil p))
  · intro c args book k r h
    exact find_preserve_applyCmd today c args book k r h

/-- Witness for C10: after adding Alice and editing her phone, the record
under the key `"Alice"` still carries the name `"Alice"`. -/
theorem book_key_consistency_witness :
    ∃ r2, bookFind (applyCmd ⟨⟨2024, 1, 1⟩, 0⟩ Cmd.change
        ["Alice", "1234567890", "0000000000"]
        [("Alice", ⟨"Alice", ["1234567890"], none⟩)]) "Alice" = some r2 ∧
      r2.name = "Alice" :=
  (book_key_consistency ⟨⟨2024, 1, 1⟩, 0⟩).2 Cmd.change
    ["Alice", "1234567890", "0000000000"]
    [("Alice", ⟨"Alice", ["1234567890"], none⟩)] "Alice"
    ⟨"Alice", ["1234567890"], none⟩ rfl
